import Mathlib

/-!
Verification of the maestro gRPC CloudEvents broker
(`src/cmd/maestro/server/grpc_server.go`) against its specification.

The Go code is shallowly embedded: JSON values become the inductive `JValue`,
CloudEvents become the structure `CloudEvent`, and the broker front-end
(`Publish`, `Subscribe`, `decode`, `encode`, `respondResyncStatusRequest`,
`findStatusHash`) becomes executable Lean functions over these types.
Collaborators of the broker that live outside the provided sources
(the resource repository, `api.Resource.HasManifestBundle`,
`api.JSONMapStatusToResourceStatus`, the canonical status-hash getter) are
modelled from the specification; each such definition carries a doc comment
starting with `Modelled from the spec:`.

Machine integers: the resource `version` is a Go `int32`.  No arithmetic is
performed on it anywhere in the embedded code (it is only compared and copied),
so it is modelled as `Int` without wrap-around.
-/

namespace Maestro

/-- JSON values, the model of Go's `interface{}` / `datatypes.JSONMap` data.
Objects are association lists of fields; Go maps carry no duplicate keys.
JSON numbers are modelled as integers (the numeric payloads are opaque to the
broker, which never inspects them). -/
inductive JValue where
  | null
  | jbool (b : Bool)
  | num (n : Int)
  | str (s : String)
  | arr (xs : List JValue)
  | obj (fields : List (String × JValue))

/-- Field lookup in a JSON object (Go map indexing). -/
def jlookup (k : String) (fields : List (String × JValue)) : Option JValue :=
  (fields.find? (fun p => p.1 == k)).map (fun p => p.2)

/-- JSON string escaping used by `renderJson` (quote and backslash; the control
characters that `encoding/json` additionally escapes never occur in the data
the broker handles and are left as-is). -/
def escapeJsonChar (c : Char) : String :=
  if c = '"' then "\\\"" else if c = '\\' then "\\\\" else String.mk [c]

def escapeJson (s : String) : String :=
  String.join (s.data.map escapeJsonChar)

mutual

/-- Model of Go's `json.Marshal` on the values the broker serializes.
`encoding/json` emits `map[string]interface{}` keys in sorted order; object
field lists in this model are kept in that canonical order, so rendering is
in list order. -/
def renderJson : JValue → String
  | .null => "null"
  | .jbool true => "true"
  | .jbool false => "false"
  | .num n => toString n
  | .str s => "\"" ++ escapeJson s ++ "\""
  | .arr xs => "[" ++ renderJsonArr xs ++ "]"
  | .obj fields => "\x7b" ++ renderJsonFields fields ++ "\x7d"

def renderJsonArr : List JValue → String
  | [] => ""
  | [x] => renderJson x
  | x :: y :: xs => renderJson x ++ "," ++ renderJsonArr (y :: xs)

def renderJsonFields : List (String × JValue) → String
  | [] => ""
  | [(k, v)] => "\"" ++ escapeJson k ++ "\":" ++ renderJson v
  | (k, v) :: f :: fs =>
      "\"" ++ escapeJson k ++ "\":" ++ renderJson v ++ "," ++ renderJsonFields (f :: fs)
end

/-! ### CloudEvents -/

/-- A CloudEvent extension attribute value as the broker sees it
(`cloudevents/sdk-go` stores extensions type-tagged). -/
inductive ExtVal where
  | str (s : String)
  | int (n : Int)
  | time (t : Int)
deriving DecidableEq

/-- The wire CloudEvent, restricted to the attributes the broker reads or
writes: source, the dotted `type` string, the extension attributes, and the
JSON data payload (`none` models an event with no data). -/
structure CloudEvent where
  source : String
  ceType : String
  extensions : List (String × ExtVal)
  data : Option JValue

def lookupExt (evt : CloudEvent) (k : String) : Option ExtVal :=
  (evt.extensions.find? (fun p => p.1 == k)).map (fun p => p.2)

/-- Model of `cetypes.ToString` (cloudevents sdk): succeeds exactly on a present
string-typed attribute. -/
def ceToString : Option ExtVal → Except Unit String
  | some (.str s) => .ok s
  | _ => .error ()

/-- Model of `cetypes.ToInteger` (cloudevents sdk): succeeds on a present int32-typed
attribute, or on a string spelling an integer in int32 range. -/
def ceToInteger : Option ExtVal → Except Unit Int
  | some (.int n) => .ok n
  | some (.str s) =>
      match s.toInt? with
      | some n => if -(2 ^ 31) ≤ n ∧ n < 2 ^ 31 then .ok n else .error ()
      | none => .error ()
  | _ => .error ()

/-- Model of `cetypes.ToTime` (cloudevents sdk): succeeds on a present time-typed
attribute (RFC3339-string parsing is not modelled; no claim depends on it). -/
def ceToTime : Option ExtVal → Except Unit Int
  | some (.time t) => .ok t
  | _ => .error ()

def extClusterName : String := "clustername"

def extResourceID : String := "resourceid"

def extResourceVersion : String := "resourceversion"

def extDeletionTimestamp : String := "deletiontimestamp"

def extOriginalSource : String := "originalsource"

/-- Model of `types.CloudEventsDataType` of the sdk: a reverse-domain group, an API
version, and a resource name. -/
structure CloudEventsDataType where
  group : String
  version : String
  resource : String
deriving DecidableEq

def manifestEventDataType : CloudEventsDataType :=
  { group := "io.open-cluster-management.works", version := "v1alpha1", resource := "manifests" }

def manifestBundleEventDataType : CloudEventsDataType :=
  { group := "io.open-cluster-management.works", version := "v1alpha1", resource := "manifestbundles" }

/-- The parsed form of a CloudEvent `type` string
(`types.CloudEventsType` of the sdk). -/
structure CloudEventsType where
  dataType : CloudEventsDataType
  subResource : String
  action : String
deriving DecidableEq

/-- Splitting a character list at a separator (`strings.Split`). -/
def splitOnChar (sep : Char) : List Char → List (List Char)
  | [] => [[]]
  | c :: cs =>
      let r := splitOnChar sep cs
      if c = sep then [] :: r
      else
        match r with
        | [] => [[c]]
        | g :: gs => (c :: g) :: gs

/-- Joining character lists with dots (`strings.Join(parts, ".")`). -/
def joinDots : List (List Char) → List Char
  | [] => []
  | [g] => g
  | g :: gs => g ++ '.' :: joinDots gs

/-- Model of `types.ParseCloudEventsType` of the sdk: the dotted `type` string splits
into at least five segments; the last two are the sub-resource and action, the
two before them the version and resource, and the remaining leading segments
rejoin into the group. -/
def parseCloudEventsType (t : String) : Option CloudEventsType :=
  match (splitOnChar '.' t.data).reverse with
  | action :: sub :: resource :: version :: g :: gs =>
      some { dataType := { group := String.mk (joinDots ((g :: gs).reverse)),
                           version := String.mk version,
                           resource := String.mk resource },
             subResource := String.mk sub,
             action := String.mk action }
  | _ => none

def createRequestAction : String := "create_request"

def updateRequestAction : String := "update_request"

def deleteRequestAction : String := "delete_request"

def resyncRequestAction : String := "resync_request"

/-! ### The resource record -/

/-- The manifest stored in a resource, at the granularity the broker
distinguishes: `decode` stores either the single manifest's object
(`manifest.Manifest.Object`) or, for bundles, the `ManifestWork`-shaped JSON
envelope it constructs (whose constant fields `kind = "ManifestWork"` and
`apiVersion` are elided here; its variable fields are kept). -/
inductive ManifestField where
  | empty
  | singleObject (obj : JValue)
  | workEnvelope (name uid : String) (manifests : List JValue)
      (deleteOption : JValue) (manifestConfigs : List JValue)

/-- The record `api.Resource` restricted to the fields the broker reads or writes.
The persisted `Type` column is neither read nor written by the code under
verification; per §3 invariant 2 of the spec the resource type is identified
with its payload shape, which is carried by `manifest`. -/
structure Resource where
  id : String
  source : String
  consumerID : String
  version : Int
  manifest : ManifestField
  status : JValue
  deletedAt : Option Int

/-- Modelled from the spec: `api.Resource.HasManifestBundle` (pkg/api, not
under src/).  §4.1: encode "chooses `data_type = manifestbundles` iff
`resource.type = Bundle`", §3 invariant 2 ties `type` to the payload shape,
and §4.1 decode stores the ManifestWork envelope exactly for `type = Bundle` —
so a resource has a manifest bundle iff its manifest is the envelope. -/
def Resource.hasManifestBundle (r : Resource) : Bool :=
  match r.manifest with
  | .workEnvelope .. => true
  | _ => false

inductive ResourceType where
  | Single
  | Bundle
deriving DecidableEq

/-- Modelled from the spec: the resource `type ∈ {Single, Bundle}` of §3,
identified with the payload shape (§3 invariant 2). -/
def Resource.resourceType (r : Resource) : ResourceType :=
  if r.hasManifestBundle then .Bundle else .Single

/-! ### The stored status (`api.ResourceStatus`) -/

/-- The record `api.ReconcileStatus` (declared in the provided pkg/api sources).
Conditions flow through the broker opaquely and are modelled as JSON values. -/
structure ReconcileStatus where
  observedVersion : Int
  sequenceID : String
  conditions : List JValue

/-- The record `api.ResourceStatus`: an opaque content-status JSON object plus an
optional reconcile status. -/
structure ResourceStatus where
  contentStatus : List (String × JValue)
  reconcileStatus : Option ReconcileStatus

/-- Decoding the `ReconcileStatus` part of a stored status map
(`json.Unmarshal` semantics: absent keys give zero values). -/
def decodeReconcileStatus : JValue → Except Unit (Option ReconcileStatus)
  | .null => .ok none
  | .obj fs => do
      let ov ← match jlookup "ObservedVersion" fs with
        | none => Except.ok 0
        | some (.num n) => Except.ok n
        | some _ => Except.error ()
      let sid ← match jlookup "SequenceID" fs with
        | none => Except.ok ""
        | some (.str s) => Except.ok s
        | some _ => Except.error ()
      let conds ← match jlookup "Conditions" fs with
        | none => Except.ok []
        | some .null => Except.ok []
        | some (.arr xs) => Except.ok xs
        | some _ => Except.error ()
      .ok (some { observedVersion := ov, sequenceID := sid, conditions := conds })
  | _ => .error ()

/-- Modelled from the spec: `api.JSONMapStatusToResourceStatus` (pkg/api, not
under src/).  It is the inverse of the marshalling visible in the provided
`api.DecodeStatus`: the stored status map holds the JSON of `ResourceStatus`
under the Go field names `ContentStatus` and `ReconcileStatus`
(`json.Unmarshal` semantics: absent keys give zero values, a `null` or absent
`ReconcileStatus` gives a nil pointer). -/
def jsonMapStatusToResourceStatus : JValue → Except Unit ResourceStatus
  | .null => .ok { contentStatus := [], reconcileStatus := none }
  | .obj fs => do
      let cs ← match jlookup "ContentStatus" fs with
        | none => Except.ok []
        | some .null => Except.ok []
        | some (.obj o) => Except.ok o
        | some _ => Except.error ()
      let rs ← match jlookup "ReconcileStatus" fs with
        | none => Except.ok none
        | some v => decodeReconcileStatus v
      .ok { contentStatus := cs, reconcileStatus := rs }
  | _ => .error ()

/-! ### Event payloads -/

/-- The payload `workpayload.Manifest` restricted to the field `decode` uses:
`Manifest.Object`, the unstructured single-manifest object. -/
structure ManifestPayload where
  manifestObject : JValue

/-- Model of `evt.DataAs(&workpayload.Manifest{})`: empty data leaves the zero value;
otherwise the JSON object's `manifest` field (an object or null, if present)
becomes the unstructured object. -/
def dataAsManifest : Option JValue → Except Unit ManifestPayload
  | none => .ok { manifestObject := .null }
  | some (.obj fs) =>
      match jlookup "manifest" fs with
      | none => .ok { manifestObject := .null }
      | some .null => .ok { manifestObject := .null }
      | some (.obj o) => .ok { manifestObject := .obj o }
      | some _ => .error ()
  | some _ => .error ()

/-- The payload `workpayload.ManifestBundle` restricted to the fields `decode` uses.
The manifests are raw JSON (`runtime.RawExtension`); the delete option and
manifest configs flow through opaquely. -/
structure ManifestBundlePayload where
  manifests : List JValue
  deleteOption : JValue
  manifestConfigs : List JValue

/-- Model of `evt.DataAs(&workpayload.ManifestBundle{})`. -/
def dataAsManifestBundle : Option JValue → Except Unit ManifestBundlePayload
  | none => .ok { manifests := [], deleteOption := .null, manifestConfigs := [] }
  | some (.obj fs) => do
      let ms ← match jlookup "manifests" fs with
        | none => Except.ok []
        | some .null => Except.ok []
        | some (.arr xs) => Except.ok xs
        | some _ => Except.error ()
      let del := match jlookup "deleteOption" fs with
        | none => JValue.null
        | some v => v
      let cfgs ← match jlookup "manifestConfigs" fs with
        | none => Except.ok []
        | some .null => Except.ok []
        | some (.arr xs) => Except.ok xs
        | some _ => Except.error ()
      .ok { manifests := ms, deleteOption := del, manifestConfigs := cfgs }
  | some _ => .error ()

/-! ### decode (wire → resource) -/

inductive DecodeError where
  | malformedEvent
  | dataMalformed
  | unsupportedDataType
deriving DecidableEq

/-- Translation of `decode` of grpc_server.go: read the required extensions `clustername`,
`resourceid`, `resourceversion` (failures are malformed-event errors), the
optional `deletiontimestamp`, then branch on the event data type: `manifests`
stores the single manifest object, `manifestbundles` constructs the
ManifestWork envelope (name = uid = resource id), anything else is an
unsupported data type. -/
def decode (eventDataType : CloudEventsDataType) (evt : CloudEvent) :
    Except DecodeError Resource :=
  match ceToString (lookupExt evt extClusterName) with
  | .error _ => .error .malformedEvent
  | .ok clusterName =>
  match ceToString (lookupExt evt extResourceID) with
  | .error _ => .error .malformedEvent
  | .ok resourceID =>
  match ceToInteger (lookupExt evt extResourceVersion) with
  | .error _ => .error .malformedEvent
  | .ok resourceVersion =>
  let delTs : Except DecodeError (Option Int) :=
    match lookupExt evt extDeletionTimestamp with
    | none => .ok none
    | some v =>
        match ceToTime (some v) with
        | .error _ => .error .malformedEvent
        | .ok t => .ok (some t)
  match delTs with
  | .error e => .error e
  | .ok deletedAt =>
  let resource : Resource :=
    { id := resourceID, source := evt.source, consumerID := clusterName,
      version := resourceVersion, manifest := .empty, status := .obj [],
      deletedAt := deletedAt }
  if eventDataType = manifestEventDataType then
    match dataAsManifest evt.data with
    | .error _ => .error .dataMalformed
    | .ok m => .ok { resource with manifest := .singleObject m.manifestObject }
  else if eventDataType = manifestBundleEventDataType then
    match dataAsManifestBundle evt.data with
    | .error _ => .error .dataMalformed
    | .ok mb =>
        .ok { resource with
                manifest := .workEnvelope resourceID resourceID mb.manifests
                  mb.deleteOption mb.manifestConfigs }
  else .error .unsupportedDataType

/-! ### encode (resource status → wire) -/

inductive EncodeError where
  | statusDecodeError
  | statusShapeMismatch
  | statusUnmarshalError
  | nilReconcileStatusDeref
deriving DecidableEq

/-- The dotted CloudEvent `type` string built by the sdk event builder. -/
def ceTypeString (dt : CloudEventsDataType) (subResource action : String) : String :=
  dt.group ++ "." ++ dt.version ++ "." ++ dt.resource ++ "." ++ subResource ++ "." ++ action

/-- The event skeleton `encode` builds: source, the `<dataType>.status.update_request`
type, and the extensions `resourceid`, `resourceversion`, `clustername`,
`originalsource`, in builder order. -/
def statusCloudEvent (r : Resource) (dt : CloudEventsDataType) (payload : JValue) :
    CloudEvent :=
  { source := r.source,
    ceType := ceTypeString dt "status" updateRequestAction,
    extensions := [(extResourceID, .str r.id), (extResourceVersion, .int r.version),
                   (extClusterName, .str r.consumerID), (extOriginalSource, .str r.source)],
    data := some payload }

/-- The JSON of `workpayload.ManifestStatus` as `encode` builds it for a
single-manifest resource: the reconcile conditions, and a `ManifestCondition`
whose single status feedback wraps the content-status JSON string as a
`FeedbackValue{name = "status", type = JsonRaw}`. -/
def manifestStatusJson (conds : List JValue) (contentStatusStr : String) : JValue :=
  .obj [("conditions", .arr conds),
        ("status", .obj
          [("conditions", .arr conds),
           ("statusFeedbacks", .obj
             [("values", .arr
               [.obj [("name", .str "status"),
                      ("fieldValue", .obj
                        [("type", .str "JsonRaw"),
                         ("jsonRaw", .str contentStatusStr)])]])])])]

/-- The record `workv1.ManifestResourceMeta`, the flat typed metadata inside a
manifest condition: an ordinal and six strings (the Go field `Namespace` is
spelled `nspace`; `namespace` is a Lean keyword). -/
structure ManifestResourceMeta where
  ordinal : Int
  group : String
  version : String
  kind : String
  resource : String
  name : String
  nspace : String

def zeroManifestResourceMeta : ManifestResourceMeta :=
  { ordinal := 0, group := "", version := "", kind := "", resource := "",
    name := "", nspace := "" }

/-- Reading an optional string field of a JSON object with `json.Unmarshal`
semantics: absent or null gives the empty string, and anything but a string is
an unmarshal error. -/
def jsonStrField (k : String) (fs : List (String × JValue)) : Except Unit String :=
  match jlookup k fs with
  | none => .ok ""
  | some .null => .ok ""
  | some (.str s) => .ok s
  | some _ => .error ()

/-- Model of `json.Unmarshal` into `workv1.ManifestResourceMeta`: the input
must be an object (or null, the zero value); absent keys give zero values,
unknown keys are ignored, and a wrongly-kinded known field is an unmarshal
error. -/
def decodeManifestResourceMeta : JValue → Except Unit ManifestResourceMeta
  | .null => .ok zeroManifestResourceMeta
  | .obj fs => do
      let ord ← match jlookup "ordinal" fs with
        | none => Except.ok 0
        | some .null => Except.ok 0
        | some (.num n) => Except.ok n
        | some _ => Except.error ()
      let g ← jsonStrField "group" fs
      let ver ← jsonStrField "version" fs
      let k ← jsonStrField "kind" fs
      let res ← jsonStrField "resource" fs
      let nm ← jsonStrField "name" fs
      let ns ← jsonStrField "namespace" fs
      .ok { ordinal := ord, group := g, version := ver, kind := k, resource := res,
            name := nm, nspace := ns }
  | _ => .error ()

/-- The JSON `json.Marshal` emits for a `ManifestResourceMeta`: fields in
declaration order, `ordinal` always, the strings only when nonempty (their
tags carry omitempty). -/
def manifestResourceMetaJson (m : ManifestResourceMeta) : JValue :=
  .obj ([("ordinal", JValue.num m.ordinal)] ++
    (if m.group = "" then [] else [("group", JValue.str m.group)]) ++
    (if m.version = "" then [] else [("version", JValue.str m.version)]) ++
    (if m.kind = "" then [] else [("kind", JValue.str m.kind)]) ++
    (if m.resource = "" then [] else [("resource", JValue.str m.resource)]) ++
    (if m.name = "" then [] else [("name", JValue.str m.name)]) ++
    (if m.nspace = "" then [] else [("namespace", JValue.str m.nspace)]))

/-- The record `workv1.ManifestCondition`, the element type of the bundle
payload's `resourceStatus` field: the typed resource metadata, the status
feedback values, and the conditions.  The feedback-value and condition
elements are `workv1`/`metav1` structs below the model's granularity and are
carried opaquely; a present `statusFeedbacks` must still be an object whose
`values` is an array, and a present `conditions` must be an array. -/
structure ManifestCondition where
  resourceMeta : ManifestResourceMeta
  statusFeedbackValues : List JValue
  conditions : List JValue

/-- Model of `json.Unmarshal` into one `workv1.ManifestCondition`: the input
must be an object (or null, the zero value); unknown fields are ignored;
wrongly-kinded known fields are unmarshal errors (coercions inside the
opaquely-carried leaf elements are below the model's granularity). -/
def decodeManifestCondition : JValue → Except Unit ManifestCondition
  | .null =>
      .ok { resourceMeta := zeroManifestResourceMeta, statusFeedbackValues := [],
            conditions := [] }
  | .obj fs => do
      let rm ← match jlookup "resourceMeta" fs with
        | none => Except.ok zeroManifestResourceMeta
        | some v => decodeManifestResourceMeta v
      let sfv ← match jlookup "statusFeedbacks" fs with
        | none => Except.ok []
        | some .null => Except.ok []
        | some (.obj sfs) =>
            (match jlookup "values" sfs with
             | none => Except.ok []
             | some .null => Except.ok []
             | some (.arr xs) => Except.ok xs
             | some _ => Except.error ())
        | some _ => Except.error ()
      let conds ← match jlookup "conditions" fs with
        | none => Except.ok []
        | some .null => Except.ok []
        | some (.arr xs) => Except.ok xs
        | some _ => Except.error ()
      .ok { resourceMeta := rm, statusFeedbackValues := sfv, conditions := conds }
  | _ => .error ()

/-- Model of `json.Unmarshal(manifestStatusJSON, &statusPayload.ResourceStatus)`
of grpc_server.go (the bundle branch of `encode`): the extracted
`ManifestStatus` value must unmarshal as `[]workv1.ManifestCondition`, i.e. be
a JSON array of condition-shaped elements (or null, giving the nil slice,
collapsed here to the empty list); anything else is the unmarshal error the
program surfaces. -/
def decodeManifestConditionList : JValue → Except Unit (List ManifestCondition)
  | .null => .ok []
  | .arr xs => xs.mapM decodeManifestCondition
  | _ => .error ()

/-- The JSON `json.Marshal` emits for one typed `ManifestCondition`: exactly
the three known fields, with the opaquely-carried leaves re-embedded. -/
def manifestConditionJson (mc : ManifestCondition) : JValue :=
  .obj [("resourceMeta", manifestResourceMetaJson mc.resourceMeta),
        ("statusFeedbacks", .obj [("values", .arr mc.statusFeedbackValues)]),
        ("conditions", .arr mc.conditions)]

/-- The JSON `json.Marshal` emits for the typed `[]workv1.ManifestCondition`
payload field: the typed re-marshal of the extracted `ManifestStatus` value
(unknown element fields dropped, missing ones zero-filled). -/
def manifestConditionListJson (l : List ManifestCondition) : JValue :=
  .arr (l.map manifestConditionJson)

/-- The JSON of `workpayload.ManifestBundleStatus` as `encode` builds it for a
bundle resource: the reconcile conditions and, as `resource_status`, the typed
re-marshal of the extracted `ManifestStatus` value (see
`decodeManifestConditionList` and `manifestConditionListJson`). -/
def manifestBundleStatusJson (conds : List JValue) (resourceStatus : JValue) : JValue :=
  .obj [("conditions", .arr conds), ("resourceStatus", resourceStatus)]

/-- Translation of `encode` of grpc_server.go: choose the data type by the payload shape,
build the status event, convert the stored status map, then branch: bundles
take the conditions (empty when the reconcile status is nil), require the
`ManifestStatus` key of the content status (its absence is the
StatusShapeMismatch error) and unmarshal its value into the typed
`[]ManifestCondition` payload field (an ill-shaped value is the unmarshal
error), embedding the typed re-marshal; singles serialize the whole content
status to a JSON string and dereference the reconcile status without a nil
guard — that dereference of a nil pointer is modelled by the
`nilReconcileStatusDeref` error. -/
def encode (r : Resource) : Except EncodeError CloudEvent :=
  let dt := if r.hasManifestBundle then manifestBundleEventDataType
            else manifestEventDataType
  match jsonMapStatusToResourceStatus r.status with
  | .error _ => .error .statusDecodeError
  | .ok resourceStatus =>
    if r.hasManifestBundle then
      let conds := match resourceStatus.reconcileStatus with
        | some rc => rc.conditions
        | none => []
      match jlookup "ManifestStatus" resourceStatus.contentStatus with
      | none => .error .statusShapeMismatch
      | some manifestStatus =>
          match decodeManifestConditionList manifestStatus with
          | .error _ => .error .statusUnmarshalError
          | .ok typedResourceStatus =>
              .ok (statusCloudEvent r dt (manifestBundleStatusJson conds
                    (manifestConditionListJson typedResourceStatus)))
    else
      match resourceStatus.reconcileStatus with
      | none => .error .nilReconcileStatusDeref
      | some rc =>
          let contentStatusJSONStr := renderJson (.obj resourceStatus.contentStatus)
          .ok (statusCloudEvent r dt (manifestStatusJson rc.conditions contentStatusJSONStr))

/-! ### Status resync payload -/

/-- Model of `payload.ResourceStatusHash` of the sdk: a resource id paired with the
hash of the status the source last saw. -/
structure ResourceStatusHash where
  resourceID : String
  statusHash : String
deriving DecidableEq

/-- One entry of the resync request's hash list (`json.Unmarshal` semantics:
absent keys give empty strings). -/
def decodeStatusHashEntry : JValue → Except Unit ResourceStatusHash
  | .obj fs => do
      let rid ← match jlookup "resourceID" fs with
        | none => Except.ok ""
        | some (.str s) => Except.ok s
        | some _ => Except.error ()
      let h ← match jlookup "statusHash" fs with
        | none => Except.ok ""
        | some (.str s) => Except.ok s
        | some _ => Except.error ()
      .ok { resourceID := rid, statusHash := h }
  | _ => .error ()

/-- Model of `payload.DecodeStatusResyncRequest` of the sdk: unmarshal the event data
as a `ResourceStatusHashList`; an event without data fails
(`json.Unmarshal` of empty input is an error). -/
def decodeStatusResyncRequest (evt : CloudEvent) : Except Unit (List ResourceStatusHash) :=
  match evt.data with
  | none => .error ()
  | some (.obj fs) =>
      match jlookup "hashes" fs with
      | none => .ok []
      | some .null => .ok []
      | some (.arr xs) => xs.mapM decodeStatusHashEntry
      | some _ => .error ()
  | some _ => .error ()

/-- Translation of `findStatusHash` of grpc_server.go: first entry of the request list whose
resource id matches. -/
def findStatusHash (id : String) : List ResourceStatusHash → Option String
  | [] => none
  | h :: hs => if id = h.resourceID then some h.statusHash else findStatusHash id hs

/-! ### The resource repository -/

/-- Modelled from the spec: the persistent store behind
`services.ResourceService` (not under src/), represented as the list of
stored resources. -/
abbrev DB := List Resource

/-- Modelled from the spec: `Get(id)` — snapshot read, `NotFound` as `none`. -/
def dbGet (db : DB) (id : String) : Option Resource :=
  db.find? (fun r => r.id == id)

/-- Modelled from the spec: `FindBySource(src)` — all resources of a source. -/
def dbFindBySource (db : DB) (src : String) : List Resource :=
  db.filter (fun r => r.source == src)

/-- Modelled from the spec: `Create(r)` — `Conflict` if the id exists. -/
def dbCreate (db : DB) (r : Resource) : Except Unit DB :=
  if (dbGet db r.id).isSome then .error () else .ok (db ++ [r])

/-- Modelled from the spec: `Update(r)` — merges the spec fields (source,
consumer, version, manifest) into the stored record, preserving `status` and
`deleted_at`; `NotFound` if the id is absent. -/
def dbUpdate (db : DB) (r : Resource) : Except Unit DB :=
  if (dbGet db r.id).isSome then
    .ok (db.map (fun s =>
      if s.id == r.id then
        { s with source := r.source, consumerID := r.consumerID,
                 version := r.version, manifest := r.manifest }
      else s))
  else .error ()

/-- Modelled from the spec: `MarkAsDeleting(id)` — idempotent, sets
`deleted_at` (the timestamp value is abstracted as 0), `NotFound` tolerated
as success. -/
def dbMarkAsDeleting (db : DB) (id : String) : DB :=
  db.map (fun s =>
    if s.id == id then
      { s with deletedAt := some (s.deletedAt.getD 0) }
    else s)

/-! ### The gRPC front-end -/

/-- A status-hash getter: the canonical hash of a resource's stored status.
`cloudevents.ResourceStatusHashGetter` (pkg/client/cloudevents, not under
src/) is kept as a parameter of the functions that call it; per the spec it is
a stable function of the content-status JSON, and only its success or failure
and its value are observable to the code under verification.  `none` models
its error return. -/
abbrev StatusHashGetter := Resource → Option String

/-- The per-resource broadcast decision of the resync loop: the resource's id
must have an entry in the request's hash list, its current status hash must be
computable, and that hash must differ from the request's. -/
def resyncBroadcastPred (hg : StatusHashGetter) (statusHashes : List ResourceStatusHash)
    (obj : Resource) : Bool :=
  match findStatusHash obj.id statusHashes with
  | none => false
  | some lastHash =>
      match hg obj with
      | none => false
      | some currentHash => currentHash != lastHash

/-- Translation of `respondResyncStatusRequest` of grpc_server.go: load the resources of the
event's source, decode the hash list; an empty list broadcasts every loaded
resource; otherwise a loaded resource is broadcast exactly when
`resyncBroadcastPred` holds.  The returned list holds the broadcast resources
in load order. -/
def respondResyncStatusRequest (db : DB) (hg : StatusHashGetter) (evt : CloudEvent) :
    Except Unit (List Resource) :=
  let objs := dbFindBySource db evt.source
  match decodeStatusResyncRequest evt with
  | .error _ => .error ()
  | .ok statusHashes =>
    if statusHashes.length = 0 then
      .ok objs
    else
      .ok (objs.filter (resyncBroadcastPred hg statusHashes))

/-- The observable calls `Publish` makes against the repository and the
event broadcaster. -/
inductive BrokerAction where
  | getCall (id : String)
  | createCall (r : Resource)
  | updateCall (r : Resource)
  | markAsDeletingCall (id : String)
  | broadcast (r : Resource)

inductive PublishError where
  | parseTypeError
  | resyncError
  | decodeError (e : DecodeError)
  | getError
  | createError
  | updateError
  | unsupportedAction (a : String)
deriving DecidableEq

/-- Translation of `Publish` of grpc_server.go: parse the event type; a `resync_request` is
answered before any decoding; otherwise decode and branch on the action —
create, update (bundles first read the stored resource and clamp the incoming
version down to the stored one when the stored version is smaller), or
mark-as-deleting; any other action is unsupported.  The result pairs the
trace of repository/broadcaster calls with the resulting store (or the
surfaced error). -/
def Publish (db : DB) (hg : StatusHashGetter) (evt : CloudEvent) :
    List BrokerAction × Except PublishError DB :=
  match parseCloudEventsType evt.ceType with
  | none => ([], .error .parseTypeError)
  | some eventType =>
    if eventType.action = resyncRequestAction then
      match respondResyncStatusRequest db hg evt with
      | .error _ => ([], .error .resyncError)
      | .ok broadcasts => (broadcasts.map BrokerAction.broadcast, .ok db)
    else
      match decode eventType.dataType evt with
      | .error e => ([], .error (.decodeError e))
      | .ok res =>
        if eventType.action = createRequestAction then
          match dbCreate db res with
          | .error _ => ([.createCall res], .error .createError)
          | .ok db2 => ([.createCall res], .ok db2)
        else if eventType.action = updateRequestAction then
          if res.hasManifestBundle then
            match dbGet db res.id with
            | none => ([.getCall res.id], .error .getError)
            | some found =>
              let res2 := if found.version < res.version
                          then { res with version := found.version } else res
              match dbUpdate db res2 with
              | .error _ => ([.getCall res.id, .updateCall res2], .error .updateError)
              | .ok db2 => ([.getCall res.id, .updateCall res2], .ok db2)
          else
            match dbUpdate db res with
            | .error _ => ([.updateCall res], .error .updateError)
            | .ok db2 => ([.updateCall res], .ok db2)
        else if eventType.action = deleteRequestAction then
          ([.markAsDeletingCall res.id], .ok (dbMarkAsDeleting db res.id))
        else ([], .error (.unsupportedAction eventType.action))

/-! ### Subscribe and the topic grammar -/

/-- A character of the `[a-z0-9-]` class of the subscription topic regex. -/
def isKebabChar (c : Char) : Bool :=
  (decide ('a' ≤ c) && decide (c ≤ 'z')) ||
  (decide ('0' ≤ c) && decide (c ≤ '9')) ||
  decide (c = '-')

/-- Strip a literal from the front of the input, the literal-consuming step
of matching the anchored topic regex. -/
def stripLit : List Char → List Char → Option (List Char)
  | [], cs => some cs
  | _ :: _, [] => none
  | l :: ls, c :: cs => if c = l then stripLit ls cs else none

/-- Matching the anchored subscription topic regex
`^sources/([a-z0-9-]+)/clusters/([a-z0-9-]+|\+)/status$` and extracting its
two capture groups (which the Go code recovers as parts 1 and 3 of the
5-segment `/`-split; the classes exclude `/`, so the split and the capture
groups coincide).  The `+`-alternative and the greedy class repetitions are
deterministic because the classes exclude both `/` and `+`. -/
def topicCapture (cs : List Char) : Option (List Char × List Char) :=
  (stripLit ("sources/".data) cs).bind (fun r1 =>
    if r1.takeWhile isKebabChar = [] then none
    else
      (stripLit ("/clusters/".data) (r1.dropWhile isKebabChar)).bind (fun r3 =>
        if r3.take 1 = ['+'] then
          if r3.drop 1 = "/status".data then some (r1.takeWhile isKebabChar, ['+'])
          else none
        else
          if r3.takeWhile isKebabChar = [] then none
          else if r3.dropWhile isKebabChar = "/status".data then
            some (r1.takeWhile isKebabChar, r3.takeWhile isKebabChar)
          else none))

/-- The observable outcome of `Subscribe`: an invalid-argument error closing
the stream, or a subscriber registered with the extracted source and
consumer (cluster-name) filters. -/
inductive SubscribeResult where
  | invalidArgument
  | registered (source consumer : String)

/-- Translation of `Subscribe` of grpc_server.go, up to the registration: validate the topic
against the regex and register a subscriber keyed by the two captured
segments. -/
def Subscribe (topic : String) : SubscribeResult :=
  match topicCapture topic.data with
  | none => .invalidArgument
  | some (s, c) => .registered (String.mk s) (String.mk c)

/-- The subscription topic grammar as §6 of the spec states it: the path
`sources/<source>/clusters/<consumer>/status` where `<source>` is a nonempty
lowercase-kebab id and `<consumer>` is a nonempty lowercase-kebab id or the
literal `+`.  Stated from the spec's words, to be compared with the
code-derived `Subscribe`. -/
def validTopic (topic s c : String) : Prop :=
  topic = "sources/" ++ s ++ "/clusters/" ++ c ++ "/status" ∧
  s ≠ "" ∧ s.data.all isKebabChar ∧
  (c = "+" ∨ (c ≠ "" ∧ c.data.all isKebabChar))

/-! ### Concrete inputs for the claim witnesses -/

/-- The optional `deletiontimestamp` extension converts successfully when
present (true also when absent). -/
def deletionTimestampOk (evt : CloudEvent) : Bool :=
  match lookupExt evt extDeletionTimestamp with
  | none => true
  | some v =>
      match ceToTime (some v) with
      | .ok _ => true
      | .error _ => false

/-- A data type that is neither `manifests` nor `manifestbundles`. -/
def unknownDataType : CloudEventsDataType :=
  { group := "io.example", version := "v1", resource := "widgets" }

/-- An event carrying none of the required extensions. -/
def noExtensionsEvent : CloudEvent :=
  { source := "src-x", ceType := "io.example.v1.widgets.spec.update_request",
    extensions := [], data := none }

/-- An event carrying all three required extensions, validly typed. -/
def fullExtensionsEvent : CloudEvent :=
  { source := "src-x", ceType := "io.example.v1.widgets.spec.update_request",
    extensions := [(extClusterName, .str "c1"), (extResourceID, .str "r1"),
                   (extResourceVersion, .int 4)],
    data := none }

/-- C6 witness data: a Single resource with a well-formed stored status. -/
def singleStatusResource : Resource :=
  { id := "r5", source := "src-a", consumerID := "c1", version := 2,
    manifest := .singleObject (.obj []),
    status := .obj
      [("ContentStatus", .obj [("phase", .str "Done")]),
       ("ReconcileStatus", .obj
         [("ObservedVersion", .num 2), ("SequenceID", .str "7"),
          ("Conditions", .arr [])])],
    deletedAt := none }

def singleStatusRC : ReconcileStatus :=
  { observedVersion := 2, sequenceID := "7", conditions := [] }

def singleStatusRS : ResourceStatus :=
  { contentStatus := [("phase", .str "Done")], reconcileStatus := some singleStatusRC }

/-- C7 witness data: a Bundle resource whose content status carries
ManifestStatus and whose ReconcileStatus is nil. -/
def bundleStatusResource : Resource :=
  { id := "r7", source := "src-b", consumerID := "c2", version := 3,
    manifest := .workEnvelope "r7" "r7" [] .null [],
    status := .obj [("ContentStatus", .obj [("ManifestStatus", .arr [])])],
    deletedAt := none }

def bundleStatusRS : ResourceStatus :=
  { contentStatus := [("ManifestStatus", .arr [])], reconcileStatus := none }

/-- C7 counterexample data: a Bundle resource whose content status carries a
present but ill-shaped ManifestStatus value. -/
def illShapedBundleResource : Resource :=
  { id := "r8", source := "src-b", consumerID := "c2", version := 1,
    manifest := .workEnvelope "r8" "r8" [] .null [],
    status := .obj [("ContentStatus", .obj [("ManifestStatus", .str "hello")])],
    deletedAt := none }

def illShapedBundleRS : ResourceStatus :=
  { contentStatus := [("ManifestStatus", .str "hello")], reconcileStatus := none }

/-- C3 witness data: a concrete Single resource and its encoded event. -/
def roundtripResource : Resource :=
  { id := "r1", source := "src-a", consumerID := "c1", version := 1,
    manifest := .singleObject (.obj [("k", .str "v")]),
    status := .obj
      [("ContentStatus", .obj [("phase", .str "Ready")]),
       ("ReconcileStatus", .obj
         [("ObservedVersion", .num 1), ("SequenceID", .str "1"),
          ("Conditions", .arr [])])],
    deletedAt := none }

def roundtripEvent : CloudEvent :=
  statusCloudEvent roundtripResource manifestEventDataType
    (manifestStatusJson [] (renderJson (.obj [("phase", .str "Ready")])))

/-- A status-hash getter that always fails; also stands in for the getter in
scenarios where it is never consulted. -/
def hgNone : StatusHashGetter := fun _ => none

/-- C1 witness data: a stored Bundle resource at version 3 and an incoming
bundle update_request at version 7. -/
def storedBundleResource : Resource :=
  { id := "r2", source := "src-a", consumerID := "c1", version := 3,
    manifest := .workEnvelope "r2" "r2" [] .null [],
    status := .obj [], deletedAt := none }

def bundleUpdateEvent : CloudEvent :=
  { source := "src-a",
    ceType := "io.open-cluster-management.works.v1alpha1.manifestbundles.spec.update_request",
    extensions := [(extClusterName, .str "c1"), (extResourceID, .str "r2"),
                   (extResourceVersion, .int 7)],
    data := some (.obj []) }

/-- The resource `decode` produces from `bundleUpdateEvent`. -/
def decodedBundleUpdate : Resource :=
  { id := "r2", source := "src-a", consumerID := "c1", version := 7,
    manifest := .workEnvelope "r2" "r2" [] .null [],
    status := .obj [], deletedAt := none }

/-- C8 witness data: a delete_request for id r6. -/
def deleteEvent : CloudEvent :=
  { source := "src-a",
    ceType := "io.open-cluster-management.works.v1alpha1.manifests.spec.delete_request",
    extensions := [(extClusterName, .str "c1"), (extResourceID, .str "r6"),
                   (extResourceVersion, .int 1)],
    data := none }

/-- The resource `decode` produces from `deleteEvent`. -/
def decodedDelete : Resource :=
  { id := "r6", source := "src-a", consumerID := "c1", version := 1,
    manifest := .singleObject .null, status := .obj [], deletedAt := none }

/-- C10 witness data: a resync_request event that carries none of the
extensions required of the other actions (and an empty hash list). -/
def resyncNoExtensionsEvent : CloudEvent :=
  { source := "src-x",
    ceType := "io.open-cluster-management.works.v1alpha1.manifests.status.resync_request",
    extensions := [],
    data := some (.obj [("hashes", .arr [])]) }

/-- C2/C9 witness data: two stored resources of source src-a, a resync request
whose hash list matches r3's current hash but not r4's (scenario 3 of the
spec), and a hash getter assigning hash H3 to r3 and H4 to anything else. -/
def resyncR3 : Resource :=
  { id := "r3", source := "src-a", consumerID := "c1", version := 1,
    manifest := .singleObject .null, status := .obj [], deletedAt := none }

def resyncR4 : Resource :=
  { id := "r4", source := "src-a", consumerID := "c1", version := 1,
    manifest := .singleObject .null, status := .obj [], deletedAt := none }

def resyncHashes : List ResourceStatusHash :=
  [{ resourceID := "r3", statusHash := "H3" }, { resourceID := "r4", statusHash := "H9" }]

def hgScenario : StatusHashGetter :=
  fun r => if r.id == "r3" then some "H3" else some "H4"

def resyncHashEvent : CloudEvent :=
  { source := "src-a",
    ceType := "io.open-cluster-management.works.v1alpha1.manifests.status.resync_request",
    extensions := [],
    data := some (.obj [("hashes", .arr
      [.obj [("resourceID", .str "r3"), ("statusHash", .str "H3")],
       .obj [("resourceID", .str "r4"), ("statusHash", .str "H9")]])]) }

/-! ## Helper lemmas -/

theorem stripLit_iff (l : List Char) :
    ∀ (cs r : List Char), stripLit l cs = some r ↔ cs = l ++ r := by
  induction l with
  | nil => intro cs r; simp [stripLit, eq_comm]
  | cons a l ih =>
    intro cs r
    cases cs with
    | nil => simp [stripLit]
    | cons x cs =>
      simp only [stripLit]
      by_cases h : x = a
      · subst h; simp [ih]
      · simp [h]

theorem all_takeWhile {α} (p : α → Bool) (l : List α) :
    (l.takeWhile p).all p = true := by
  rw [List.all_eq_true]
  intro x hx
  exact List.mem_takeWhile_imp hx

theorem takeWhile_append_not {α} (p : α → Bool) :
    ∀ (s : List α) (b : α) (t : List α), s.all p = true → p b = false →
      (s ++ b :: t).takeWhile p = s ∧ (s ++ b :: t).dropWhile p = b :: t := by
  intro s
  induction s with
  | nil =>
    intro b t _ hb
    simp [List.takeWhile_cons, List.dropWhile_cons, hb]
  | cons a s ih =>
    intro b t hall hb
    rw [List.all_cons] at hall
    obtain ⟨ha, hs⟩ := Bool.and_eq_true_iff.mp hall
    have := ih b t hs hb
    simp [List.takeWhile_cons, List.dropWhile_cons, ha, this.1, this.2]

theorem topicCapture_iff (cs s c : List Char) :
    topicCapture cs = some (s, c) ↔
      (cs = "sources/".data ++ (s ++ ("/clusters/".data ++ (c ++ "/status".data))) ∧
       s ≠ [] ∧ s.all isKebabChar ∧
       (c = ['+'] ∨ (c ≠ [] ∧ c.all isKebabChar))) := by
  constructor
  · intro h
    unfold topicCapture at h
    cases h1 : stripLit ("sources/".data) cs with
    | none => rw [h1, Option.none_bind] at h; exact absurd h (by simp)
    | some r1 =>
      rw [h1, Option.some_bind] at h
      have hcs1 : cs = "sources/".data ++ r1 := (stripLit_iff _ _ _).mp h1
      by_cases hs0 : r1.takeWhile isKebabChar = []
      · rw [if_pos hs0] at h; exact absurd h (by simp)
      · rw [if_neg hs0] at h
        cases h2 : stripLit ("/clusters/".data) (r1.dropWhile isKebabChar) with
        | none => rw [h2, Option.none_bind] at h; exact absurd h (by simp)
        | some r3 =>
          rw [h2, Option.some_bind] at h
          have hr1 : r1 = r1.takeWhile isKebabChar ++ r1.dropWhile isKebabChar :=
            (List.takeWhile_append_dropWhile isKebabChar r1).symm
          have hr2 : r1.dropWhile isKebabChar = "/clusters/".data ++ r3 :=
            (stripLit_iff _ _ _).mp h2
          by_cases hplus : r3.take 1 = ['+']
          · rw [if_pos hplus] at h
            by_cases hst : r3.drop 1 = "/status".data
            · rw [if_pos hst] at h
              have hsc : r1.takeWhile isKebabChar = s ∧ ['+'] = c := by
                simpa using h
              obtain ⟨hse, hce⟩ := hsc
              have hr3 : r3 = '+' :: "/status".data := by
                conv_lhs => rw [← List.take_append_drop 1 r3]
                rw [hplus, hst]; rfl
              refine ⟨?_, ?_, ?_, Or.inl hce.symm⟩
              · rw [hcs1, hr1, hr2, hr3, hse, ← hce]
                try simp
              · rw [← hse]; exact hs0
              · rw [← hse]; exact all_takeWhile _ _
            · rw [if_neg hst] at h; exact absurd h (by simp)
          · rw [if_neg hplus] at h
            by_cases hc0 : r3.takeWhile isKebabChar = []
            · rw [if_pos hc0] at h; exact absurd h (by simp)
            · rw [if_neg hc0] at h
              by_cases hst : r3.dropWhile isKebabChar = "/status".data
              · rw [if_pos hst] at h
                have hsc : r1.takeWhile isKebabChar = s ∧ r3.takeWhile isKebabChar = c := by
                  simpa using h
                obtain ⟨hse, hce⟩ := hsc
                have hr3 : r3 = r3.takeWhile isKebabChar ++ "/status".data := by
                  conv_lhs => rw [← List.takeWhile_append_dropWhile isKebabChar r3]
                  rw [hst]
                refine ⟨?_, ?_, ?_, Or.inr ⟨?_, ?_⟩⟩
                · rw [hcs1, hr1, hr2, hr3, hse, hce]
                  try simp
                · rw [← hse]; exact hs0
                · rw [← hse]; exact all_takeWhile _ _
                · rw [← hce]; exact hc0
                · rw [← hce]; exact all_takeWhile _ _
              · rw [if_neg hst] at h; exact absurd h (by simp)
  · rintro ⟨hcs, hsne, hsall, hc⟩
    have hsl : stripLit ("sources/".data) cs =
        some (s ++ ("/clusters/".data ++ (c ++ "/status".data))) :=
      (stripLit_iff _ _ _).mpr hcs
    have hsw := takeWhile_append_not isKebabChar s '/'
      ("clusters/".data ++ (c ++ "/status".data)) hsall (by decide)
    unfold topicCapture
    rw [hsl, Option.some_bind]
    rw [show s ++ ("/clusters/".data ++ (c ++ "/status".data)) =
          s ++ '/' :: ("clusters/".data ++ (c ++ "/status".data)) from rfl]
    rw [hsw.1, hsw.2, if_neg hsne]
    have hsl2 : stripLit ("/clusters/".data)
        ('/' :: ("clusters/".data ++ (c ++ "/status".data))) =
        some (c ++ "/status".data) := (stripLit_iff _ _ _).mpr rfl
    rw [hsl2, Option.some_bind]
    rcases hc with hplus | ⟨hcne, hcall⟩
    · subst hplus
      rw [show (['+'] ++ "/status".data : List Char).take 1 = ['+'] from rfl]
      rw [if_pos rfl]
      rw [show (['+'] ++ "/status".data : List Char).drop 1 = "/status".data from rfl]
      rw [if_pos rfl]
    · cases c with
      | nil => exact absurd rfl hcne
      | cons c0 ct =>
        have hc0 : isKebabChar c0 = true := by
          rw [List.all_cons] at hcall
          exact (Bool.and_eq_true_iff.mp hcall).1
        have hc0ne : c0 ≠ '+' := by
          intro hEq; rw [hEq] at hc0; exact absurd hc0 (by decide)
        rw [show ((c0 :: ct) ++ "/status".data : List Char).take 1 = [c0] from rfl]
        rw [if_neg (by simp [hc0ne])]
        have hcw := takeWhile_append_not isKebabChar (c0 :: ct) '/'
          ("status".data) hcall (by decide)
        rw [show ((c0 :: ct) ++ "/status".data : List Char) =
              (c0 :: ct) ++ '/' :: "status".data from rfl]
        rw [hcw.1, hcw.2, if_neg (by simp)]
        rw [if_pos rfl]

theorem validTopic_iff_capture (topic s c : String) :
    validTopic topic s c ↔ topicCapture topic.data = some (s.data, c.data) := by
  rw [topicCapture_iff]
  constructor
  · rintro ⟨h1, h2, h3, h4⟩
    refine ⟨?_, ?_, h3, ?_⟩
    · have := congrArg String.data h1
      simpa [String.data_append, List.append_assoc] using this
    · intro hnil; exact h2 (String.ext hnil)
    · rcases h4 with h | ⟨hne, hall⟩
      · exact Or.inl (by rw [h])
      · exact Or.inr ⟨fun hnil => hne (String.ext hnil), hall⟩
  · rintro ⟨h1, h2, h3, h4⟩
    refine ⟨?_, ?_, h3, ?_⟩
    · apply String.ext
      simpa [String.data_append, List.append_assoc] using h1
    · intro hempty; rw [hempty] at h2; exact h2 rfl
    · rcases h4 with h | ⟨hne, hall⟩
      · exact Or.inl (String.ext h)
      · exact Or.inr ⟨fun hc => hne (by rw [hc]), hall⟩

theorem resyncBroadcastPred_eq_true (hg : StatusHashGetter)
    (hashes : List ResourceStatusHash) (obj : Resource) :
    resyncBroadcastPred hg hashes obj = true ↔
      ∃ lastH curH, findStatusHash obj.id hashes = some lastH ∧
        hg obj = some curH ∧ curH ≠ lastH := by
  unfold resyncBroadcastPred
  cases hfs : findStatusHash obj.id hashes with
  | none =>
    constructor
    · intro h; exact absurd h (by simp)
    · rintro ⟨lastH, curH, hl, -, -⟩; exact absurd hl (by simp)
  | some lastHash =>
    cases hhg : hg obj with
    | none =>
      constructor
      · intro h; exact absurd h (by simp)
      · rintro ⟨lastH, curH, -, hc, -⟩; exact absurd hc (by simp)
    | some currentHash =>
      constructor
      · intro h
        exact ⟨lastHash, currentHash, rfl, rfl, by simpa [bne_iff_ne] using h⟩
      · rintro ⟨lastH, curH, hl, hc, hne⟩
        obtain rfl : lastHash = lastH := by simpa using hl
        obtain rfl : currentHash = curH := by simpa using hc
        simpa [bne_iff_ne] using hne

theorem find?_map_congr {α} (f : α → α) (p : α → Bool) (h : ∀ a, p (f a) = p a) :
    ∀ l : List α, (l.map f).find? p = (l.find? p).map f := by
  intro l
  induction l with
  | nil => rfl
  | cons a t ih =>
    cases hpa : p a with
    | true => simp [List.find?_cons, h a, hpa]
    | false => simp [List.find?_cons, h a, hpa, ih]

theorem dbGet_map_id_preserving (db : DB) (f : Resource → Resource)
    (hid : ∀ a, (f a).id = a.id) (id : String) :
    dbGet (db.map f) id = (dbGet db id).map f := by
  unfold dbGet
  exact find?_map_congr f (fun r => r.id == id) (fun a => by simp only []; rw [hid a]) db

/-! ## Claims -/

/-- C4: a Subscribe call proceeds to register a subscriber if and only if its
topic matches the exact regex
`^sources/([a-z0-9-]+)/clusters/([a-z0-9-]+|\+)/status$`, in which case the
first capture group becomes the source filter and the second (a
lowercase-kebab id or the literal `+`) becomes the consumer filter; for every
non-matching topic, Subscribe returns an invalid-argument error and the stream
closes without registering. -/
theorem subscribe_topic_validation (topic : String) :
    (∀ s c : String, Subscribe topic = .registered s c ↔ validTopic topic s c) ∧
    (Subscribe topic = .invalidArgument ↔ ∀ s c : String, ¬ validTopic topic s c) := by
  have hreg : ∀ s c : String,
      Subscribe topic = .registered s c ↔ topicCapture topic.data = some (s.data, c.data) := by
    intro s c
    unfold Subscribe
    cases hcap : topicCapture topic.data with
    | none => simp
    | some sc =>
      obtain ⟨s0, c0⟩ := sc
      simp only [SubscribeResult.registered.injEq, Option.some.injEq, Prod.mk.injEq]
      constructor
      · rintro ⟨h1, h2⟩
        exact ⟨(congrArg String.data h1 : s0 = s.data), (congrArg String.data h2 : c0 = c.data)⟩
      · rintro ⟨h1, h2⟩
        exact ⟨congrArg String.mk h1, congrArg String.mk h2⟩
  constructor
  · intro s c
    rw [hreg s c, validTopic_iff_capture]
  · constructor
    · intro hinv s c hvt
      rw [validTopic_iff_capture] at hvt
      have := (hreg s c).mpr hvt
      rw [this] at hinv
      exact absurd hinv (by simp)
    · intro hno
      cases hcap : topicCapture topic.data with
      | none => unfold Subscribe; rw [hcap]
      | some sc =>
        obtain ⟨s0, c0⟩ := sc
        exfalso
        apply hno (String.mk s0) (String.mk c0)
        rw [validTopic_iff_capture]
        exact hcap

/-- C2: for every resync_request from a source, with L the resources loaded by
FindBySource for that source and H the client's (resource_id, status_hash)
list: if H is empty, every resource in L is broadcast; otherwise (provided the
canonical hash is computable on the loaded resources) a resource in L is
broadcast if and only if its id is present in H and the canonical hash of its
stored status differs from the client's hash for that id; a resource whose id
is absent from H is skipped (no broadcast, no error), and a resource whose
current hash equals the client's hash is not broadcast. -/
theorem ingress_resync_filtering (db : DB) (hg : StatusHashGetter) (evt : CloudEvent)
    (hashes : List ResourceStatusHash)
    (hdec : decodeStatusResyncRequest evt = .ok hashes)
    (htotal : ∀ r ∈ dbFindBySource db evt.source, (hg r).isSome = true) :
    (hashes = [] →
      respondResyncStatusRequest db hg evt = .ok (dbFindBySource db evt.source)) ∧
    (hashes ≠ [] → ∃ bs, respondResyncStatusRequest db hg evt = .ok bs ∧
      ∀ r ∈ dbFindBySource db evt.source,
        (r ∈ bs ↔ ∃ lastH, findStatusHash r.id hashes = some lastH ∧
           hg r ≠ some lastH)) := by
  constructor
  · intro h
    subst h
    simp [respondResyncStatusRequest, hdec]
  · intro hne
    have hlen : ¬ hashes.length = 0 := by simpa using hne
    simp only [respondResyncStatusRequest, hdec, if_neg hlen]
    refine ⟨_, rfl, ?_⟩
    intro r hr
    rw [List.mem_filter, resyncBroadcastPred_eq_true]
    obtain ⟨curH, hcur⟩ := Option.isSome_iff_exists.mp (htotal r hr)
    constructor
    · rintro ⟨-, lastH, curH2, hl, hc, hdiff⟩
      refine ⟨lastH, hl, ?_⟩
      rw [hc]
      intro hEq
      exact hdiff (by simpa using hEq)
    · rintro ⟨lastH, hl, hdiff⟩
      refine ⟨hr, lastH, curH, hl, hcur, ?_⟩
      intro hEq
      apply hdiff
      rw [hcur, hEq]

/-- C9 (implicit): during ingress resync with a non-empty hash list, every
loaded resource whose canonical current status hash cannot be computed (the
hash getter errors) is skipped silently — it is not broadcast, and
respondResyncStatusRequest still returns success with no error surfaced. -/
theorem resync_hash_error_skipped (db : DB) (hg : StatusHashGetter) (evt : CloudEvent)
    (hashes : List ResourceStatusHash) (r : Resource)
    (hdec : decodeStatusResyncRequest evt = .ok hashes)
    (hne : hashes ≠ [])
    (hr : r ∈ dbFindBySource db evt.source)
    (hfail : hg r = none) :
    ∃ bs, respondResyncStatusRequest db hg evt = .ok bs ∧ r ∉ bs := by
  have hlen : ¬ hashes.length = 0 := by simpa using hne
  simp only [respondResyncStatusRequest, hdec, if_neg hlen]
  refine ⟨_, rfl, ?_⟩
  intro hmem
  rw [List.mem_filter, resyncBroadcastPred_eq_true] at hmem
  obtain ⟨-, lastH, curH, -, hc, -⟩ := hmem
  rw [hfail] at hc
  exact absurd hc (by simp)

/-- C5 counterexample: the claim says every CloudEvent with an unrecognized
data type fails with UnsupportedDataType, but `decode` checks the required
extensions first — on an event with an unknown data type and no extensions it
fails with MalformedEvent instead. -/
theorem decode_unknown_type_counterexample :
    decode unknownDataType noExtensionsEvent = .error .malformedEvent ∧
    DecodeError.malformedEvent ≠ DecodeError.unsupportedDataType :=
  ⟨rfl, by decide⟩

/-- C5 (amended): for every CloudEvent whose extension checks all pass (the
three required extensions convert, and the optional deletiontimestamp, if
present, converts) but whose data_type is neither manifests nor
manifestbundles, decode fails with UnsupportedDataType; for every CloudEvent
missing one of the required extensions clustername or resourceid, or whose
resourceversion does not convert to an integer, decode fails with
MalformedEvent; decode succeeds only when all three required extensions
convert and the data_type is one of the two recognized shapes. -/
theorem decode_error_conditions (dt : CloudEventsDataType) (evt : CloudEvent) :
    ((∃ cn, ceToString (lookupExt evt extClusterName) = .ok cn) →
     (∃ rid, ceToString (lookupExt evt extResourceID) = .ok rid) →
     (∃ v, ceToInteger (lookupExt evt extResourceVersion) = .ok v) →
     deletionTimestampOk evt = true →
     dt ≠ manifestEventDataType → dt ≠ manifestBundleEventDataType →
     decode dt evt = .error .unsupportedDataType) ∧
    ((lookupExt evt extClusterName = none ∨ lookupExt evt extResourceID = none ∨
      (∀ v, ceToInteger (lookupExt evt extResourceVersion) ≠ .ok v)) →
     decode dt evt = .error .malformedEvent) ∧
    (∀ res, decode dt evt = .ok res →
      ((∃ cn, ceToString (lookupExt evt extClusterName) = .ok cn) ∧
       (∃ rid, ceToString (lookupExt evt extResourceID) = .ok rid) ∧
       (∃ v, ceToInteger (lookupExt evt extResourceVersion) = .ok v) ∧
       (dt = manifestEventDataType ∨ dt = manifestBundleEventDataType))) := by
  refine ⟨?_, ?_, ?_⟩
  · rintro ⟨cn, hcn⟩ ⟨rid, hrid⟩ ⟨v, hv⟩ hdel hne1 hne2
    simp only [decode, hcn, hrid, hv]
    cases hld : lookupExt evt extDeletionTimestamp with
    | none =>
      simp only [hld, if_neg hne1, if_neg hne2]
    | some w =>
      cases ht : ceToTime (some w) with
      | error e =>
        exfalso
        simp [deletionTimestampOk, hld, ht] at hdel
      | ok t =>
        simp only [hld, ht, if_neg hne1, if_neg hne2]
  · intro hmiss
    rcases hmiss with hcn | hrid | hv
    · have hcnc : ceToString (lookupExt evt extClusterName) = .error () := by
        rw [hcn]; rfl
      simp [decode, hcnc]
    · have hridc : ceToString (lookupExt evt extResourceID) = .error () := by
        rw [hrid]; rfl
      cases hcn : ceToString (lookupExt evt extClusterName) with
      | error e => simp [decode, hcn]
      | ok cn => simp [decode, hcn, hridc]
    · cases hcn : ceToString (lookupExt evt extClusterName) with
      | error e => simp [decode, hcn]
      | ok cn =>
        cases hrid : ceToString (lookupExt evt extResourceID) with
        | error e => simp [decode, hcn, hrid]
        | ok rid =>
          cases hvv : ceToInteger (lookupExt evt extResourceVersion) with
          | error e => simp [decode, hcn, hrid, hvv]
          | ok v => exact absurd hvv (hv v)
  · intro res h
    have hstep : ∃ cn rid v, ceToString (lookupExt evt extClusterName) = .ok cn ∧
        ceToString (lookupExt evt extResourceID) = .ok rid ∧
        ceToInteger (lookupExt evt extResourceVersion) = .ok v := by
      cases hcn : ceToString (lookupExt evt extClusterName) with
      | error e => simp [decode, hcn] at h
      | ok cn =>
        cases hrid : ceToString (lookupExt evt extResourceID) with
        | error e => simp [decode, hcn, hrid] at h
        | ok rid =>
          cases hv : ceToInteger (lookupExt evt extResourceVersion) with
          | error e => simp [decode, hcn, hrid, hv] at h
          | ok v => exact ⟨cn, rid, v, rfl, rfl, rfl⟩
    obtain ⟨cn, rid, v, hcn, hrid, hv⟩ := hstep
    refine ⟨⟨cn, hcn⟩, ⟨rid, hrid⟩, ⟨v, hv⟩, ?_⟩
    by_cases hdt1 : dt = manifestEventDataType
    · exact Or.inl hdt1
    by_cases hdt2 : dt = manifestBundleEventDataType
    · exact Or.inr hdt2
    exfalso
    cases hld : lookupExt evt extDeletionTimestamp with
    | none =>
      simp [decode, hcn, hrid, hv, hld, if_neg hdt1, if_neg hdt2] at h
    | some w =>
      cases ht : ceToTime (some w) with
      | error e => simp [decode, hcn, hrid, hv, hld, ht] at h
      | ok t => simp [decode, hcn, hrid, hv, hld, ht, if_neg hdt1, if_neg hdt2] at h

/-- C5 witness: the amended theorem applied at the concrete event with all
extensions present and an unknown data type. -/
theorem decode_error_conditions_witness :
    decode unknownDataType fullExtensionsEvent = .error .unsupportedDataType :=
  (decode_error_conditions unknownDataType fullExtensionsEvent).1
    ⟨"c1", rfl⟩ ⟨"r1", rfl⟩ ⟨4, rfl⟩ rfl (by decide) (by decide)

/-- C6: for every resource of type Single whose stored status decodes to a
ResourceStatus with non-nil ReconcileStatus, encode returns without error (and
without the modelled nil-dereference panic) an event whose payload wraps the
JSON serialization of the entire content status as a single
FeedbackValue(name "status", type JsonRaw) alongside the reconcile
conditions; non-nil ReconcileStatus is a necessary precondition on the Single
branch — with a nil ReconcileStatus the Single branch dereferences the nil
pointer (the Bundle branch guards it). -/
theorem single_manifest_encode_totality (r : Resource) (rs : ResourceStatus)
    (hsingle : r.hasManifestBundle = false)
    (hst : jsonMapStatusToResourceStatus r.status = .ok rs) :
    (∀ rc, rs.reconcileStatus = some rc →
      encode r = .ok (statusCloudEvent r manifestEventDataType
        (manifestStatusJson rc.conditions (renderJson (.obj rs.contentStatus))))) ∧
    (rs.reconcileStatus = none → encode r = .error .nilReconcileStatusDeref) := by
  constructor
  · intro rc hrc
    simp [encode, hst, hsingle, hrc]
  · intro hrc
    simp [encode, hst, hsingle, hrc]

/-- C6 witness: the theorem applied at the concrete Single resource. -/
theorem single_manifest_encode_totality_witness :
    singleStatusResource.hasManifestBundle = false ∧
    jsonMapStatusToResourceStatus singleStatusResource.status = .ok singleStatusRS ∧
    encode singleStatusResource = .ok (statusCloudEvent singleStatusResource
      manifestEventDataType
      (manifestStatusJson singleStatusRC.conditions
        (renderJson (.obj singleStatusRS.contentStatus)))) :=
  ⟨rfl, rfl,
    (single_manifest_encode_totality singleStatusResource singleStatusRS rfl rfl).1
      singleStatusRC rfl⟩

/-- C7 counterexample: the claim says a present ManifestStatus value is
embedded, but on a Bundle resource whose ManifestStatus is present yet
ill-shaped (a string where the typed unmarshal needs an array of manifest
conditions) encode fails with the unmarshal error — nothing is embedded; the
error is also not StatusShapeMismatch, so the absence-iff clause is
unaffected. -/
theorem bundle_status_encode_counterexample :
    jlookup "ManifestStatus" illShapedBundleRS.contentStatus =
      some (JValue.str "hello") ∧
    encode illShapedBundleResource = .error .statusUnmarshalError ∧
    encode illShapedBundleResource ≠ .ok (statusCloudEvent illShapedBundleResource
      manifestBundleEventDataType
      (manifestBundleStatusJson [] (JValue.str "hello"))) ∧
    EncodeError.statusUnmarshalError ≠ EncodeError.statusShapeMismatch := by
  refine ⟨rfl, rfl, ?_, by decide⟩
  rw [show encode illShapedBundleResource =
        Except.error EncodeError.statusUnmarshalError from rfl]
  simp

/-- C7 (amended): for every resource of type Bundle whose stored status
decodes, encode fails with the StatusShapeMismatch error if and only if the
key "ManifestStatus" is absent from the stored content-status map; when
present and its value unmarshals into the typed manifest-condition list, the
typed re-marshal of that value is embedded as the payload's resource_status
and the reconcile conditions (empty when ReconcileStatus is nil) become the
payload's conditions; when present but ill-shaped, encode fails with the
unmarshal error instead. -/
theorem bundle_status_encode_shape (r : Resource) (rs : ResourceStatus)
    (hbundle : r.hasManifestBundle = true)
    (hst : jsonMapStatusToResourceStatus r.status = .ok rs) :
    (encode r = .error .statusShapeMismatch ↔
      jlookup "ManifestStatus" rs.contentStatus = none) ∧
    (∀ v cl, jlookup "ManifestStatus" rs.contentStatus = some v →
      decodeManifestConditionList v = .ok cl →
      encode r = .ok (statusCloudEvent r manifestBundleEventDataType
        (manifestBundleStatusJson
          (match rs.reconcileStatus with
           | some rc => rc.conditions
           | none => []) (manifestConditionListJson cl)))) ∧
    (∀ v, jlookup "ManifestStatus" rs.contentStatus = some v →
      decodeManifestConditionList v = .error () →
      encode r = .error .statusUnmarshalError) := by
  refine ⟨?_, ?_, ?_⟩
  · constructor
    · intro h
      cases hms : jlookup "ManifestStatus" rs.contentStatus with
      | none => rfl
      | some v =>
        cases hdc : decodeManifestConditionList v with
        | error u => simp [encode, hst, hbundle, hms, hdc] at h
        | ok cl => simp [encode, hst, hbundle, hms, hdc] at h
    · intro hms
      simp [encode, hst, hbundle, hms]
  · intro v cl hms hdc
    simp [encode, hst, hbundle, hms, hdc]
  · intro v hms hdc
    simp [encode, hst, hbundle, hms, hdc]

/-- C7 witness: the amended theorem applied at the concrete Bundle resource
whose ManifestStatus is a well-shaped (empty) manifest-condition list. -/
theorem bundle_status_encode_shape_witness :
    bundleStatusResource.hasManifestBundle = true ∧
    jsonMapStatusToResourceStatus bundleStatusResource.status = .ok bundleStatusRS ∧
    decodeManifestConditionList (.arr []) = .ok [] ∧
    encode bundleStatusResource = .ok (statusCloudEvent bundleStatusResource
      manifestBundleEventDataType
      (manifestBundleStatusJson [] (manifestConditionListJson []))) :=
  ⟨rfl, rfl, rfl,
    (bundle_status_encode_shape bundleStatusResource bundleStatusRS rfl rfl).2.1
      (.arr []) [] rfl rfl⟩

/-- C3: for every resource on which encode succeeds, decoding the encoded
CloudEvent yields a resource whose id, version, consumer_id, source, and type
(the payload-shape discriminator) equal the corresponding fields of the
original. -/
theorem encode_decode_roundtrip (r : Resource) (e : CloudEvent)
    (henc : encode r = .ok e) :
    ∃ et res, parseCloudEventsType e.ceType = some et ∧
      decode et.dataType e = .ok res ∧
      res.id = r.id ∧ res.version = r.version ∧ res.consumerID = r.consumerID ∧
      res.source = r.source ∧ res.resourceType = r.resourceType := by
  cases hst : jsonMapStatusToResourceStatus r.status with
  | error u => simp [encode, hst] at henc
  | ok rs =>
    cases hb : r.hasManifestBundle with
    | false =>
      cases hrc : rs.reconcileStatus with
      | none => simp [encode, hst, hb, hrc] at henc
      | some rc =>
        have he : e = statusCloudEvent r manifestEventDataType
            (manifestStatusJson rc.conditions (renderJson (.obj rs.contentStatus))) := by
          simp [encode, hst, hb, hrc] at henc
          exact henc.symm
        subst he
        refine ⟨{ dataType := manifestEventDataType, subResource := "status",
                  action := updateRequestAction }, _, rfl, rfl, rfl, rfl, rfl, rfl, ?_⟩
        have hr : r.resourceType = ResourceType.Single := by
          simp [Resource.resourceType, hb]
        rw [hr]
        rfl
    | true =>
      cases hms : jlookup "ManifestStatus" rs.contentStatus with
      | none => simp [encode, hst, hb, hms] at henc
      | some ms =>
        cases hdc : decodeManifestConditionList ms with
        | error u => simp [encode, hst, hb, hms, hdc] at henc
        | ok cl =>
        have he : e = statusCloudEvent r manifestBundleEventDataType
            (manifestBundleStatusJson
              (match rs.reconcileStatus with
               | some rc => rc.conditions
               | none => []) (manifestConditionListJson cl)) := by
          simp [encode, hst, hb, hms, hdc] at henc
          exact henc.symm
        subst he
        refine ⟨{ dataType := manifestBundleEventDataType, subResource := "status",
                  action := updateRequestAction }, _, rfl, rfl, rfl, rfl, rfl, rfl, ?_⟩
        have hr : r.resourceType = ResourceType.Bundle := by
          simp [Resource.resourceType, hb]
        rw [hr]
        rfl

/-- C3 witness: the theorem applied at the concrete resource. -/
theorem encode_decode_roundtrip_witness :
    encode roundtripResource = .ok roundtripEvent ∧
    (∃ et res, parseCloudEventsType roundtripEvent.ceType = some et ∧
      decode et.dataType roundtripEvent = .ok res ∧
      res.id = roundtripResource.id ∧ res.version = roundtripResource.version ∧
      res.consumerID = roundtripResource.consumerID ∧
      res.source = roundtripResource.source ∧
      res.resourceType = roundtripResource.resourceType) :=
  ⟨rfl, encode_decode_roundtrip roundtripResource roundtripEvent rfl⟩

/-- C1: for every Publish with action update_request on a Bundle resource, the
broker first reads the stored resource; if the stored version is strictly less
than the incoming version, the incoming version is rewritten to the stored
version before repository.Update is applied, so the resulting stored version
equals the previously stored version; for every Single-manifest update_request
no such rewrite is applied and the incoming version is passed to Update
unchanged. -/
theorem version_clash_rule (db : DB) (hg : StatusHashGetter) (evt : CloudEvent)
    (et : CloudEventsType) (res : Resource)
    (hp : parseCloudEventsType evt.ceType = some et)
    (hact : et.action = updateRequestAction)
    (hdec : decode et.dataType evt = .ok res) :
    (∀ found, res.hasManifestBundle = true → dbGet db res.id = some found →
      found.version < res.version →
      (Publish db hg evt).1 =
        [.getCall res.id, .updateCall { res with version := found.version }] ∧
      ∃ db2, (Publish db hg evt).2 = .ok db2 ∧
        ∃ stored, dbGet db2 res.id = some stored ∧ stored.version = found.version) ∧
    (res.hasManifestBundle = false →
      (Publish db hg evt).1 = [.updateCall res]) := by
  constructor
  · intro found hb hfound hlt
    have hsome : (dbGet db ({ res with version := found.version } : Resource).id).isSome = true := by
      rw [show ({ res with version := found.version } : Resource).id = res.id from rfl, hfound]
      rfl
    constructor
    · simp only [Publish, hp, hact, hdec, hb]
      simp [hlt, dbUpdate, hfound, hsome, updateRequestAction, resyncRequestAction,
        createRequestAction]
    · refine ⟨db.map (fun s =>
          if s.id == res.id then
            { s with source := res.source, consumerID := res.consumerID,
                     version := found.version, manifest := res.manifest }
          else s), ?_, ?_⟩
      · simp only [Publish, hp, hact, hdec, hb]
        simp [hlt, dbUpdate, hfound, hsome, updateRequestAction, resyncRequestAction,
          createRequestAction]
      · have hid : ∀ a : Resource,
            ((fun s =>
              if s.id == res.id then
                { s with source := res.source, consumerID := res.consumerID,
                         version := found.version, manifest := res.manifest }
              else s) a).id = a.id := by
          intro a
          by_cases h : a.id == res.id <;> simp [h]
        rw [dbGet_map_id_preserving db _ hid res.id, hfound]
        have hfid0 := List.find?_some
          (show db.find? (fun r => r.id == res.id) = some found from hfound)
        have hfid : (found.id == res.id) = true := hfid0
        refine ⟨_, rfl, ?_⟩
        simp [hfid]
  · intro hb
    cases hupd : dbUpdate db res with
    | error e =>
      simp only [Publish, hp, hact, hdec, hb, hupd]
      simp [updateRequestAction, resyncRequestAction, createRequestAction]
    | ok db2 =>
      simp only [Publish, hp, hact, hdec, hb, hupd]
      simp [updateRequestAction, resyncRequestAction, createRequestAction]

/-- C1 witness: publishing the version-7 bundle update over the version-3
store updates with the version clamped back to 3. -/
theorem version_clash_rule_witness :
    (Publish [storedBundleResource] hgNone bundleUpdateEvent).1 =
      [.getCall decodedBundleUpdate.id,
       .updateCall { decodedBundleUpdate with version := storedBundleResource.version }] ∧
    ∃ db2, (Publish [storedBundleResource] hgNone bundleUpdateEvent).2 = .ok db2 ∧
      ∃ stored, dbGet db2 decodedBundleUpdate.id = some stored ∧
        stored.version = storedBundleResource.version :=
  (version_clash_rule [storedBundleResource] hgNone bundleUpdateEvent
      { dataType := manifestBundleEventDataType, subResource := "spec",
        action := updateRequestAction }
      decodedBundleUpdate rfl rfl rfl).1
    storedBundleResource rfl rfl (by decide)

/-- C8: for every Publish with action delete_request whose event decodes
successfully, the broker calls repository.MarkAsDeleting exactly once with the
decoded resource id, calls neither Create nor Update, and synthesizes no
broadcast to any subscriber as part of the delete (the call trace is exactly
the one MarkAsDeleting call). -/
theorem delete_request_frame (db : DB) (hg : StatusHashGetter) (evt : CloudEvent)
    (et : CloudEventsType) (res : Resource)
    (hp : parseCloudEventsType evt.ceType = some et)
    (hact : et.action = deleteRequestAction)
    (hdec : decode et.dataType evt = .ok res) :
    Publish db hg evt =
      ([.markAsDeletingCall res.id], .ok (dbMarkAsDeleting db res.id)) := by
  simp only [Publish, hp, hact, hdec]
  simp [deleteRequestAction, resyncRequestAction, createRequestAction, updateRequestAction]

/-- C8 witness: the delete publish traces exactly one MarkAsDeleting("r6"). -/
theorem delete_request_frame_witness :
    Publish [] hgNone deleteEvent = ([.markAsDeletingCall "r6"], .ok []) :=
  delete_request_frame [] hgNone deleteEvent
    { dataType := manifestEventDataType, subResource := "spec",
      action := deleteRequestAction }
    decodedDelete rfl rfl rfl

/-- C10 (implicit): Publish dispatches resync_request before decoding, so for
every event whose type parses with action resync_request, Publish never calls
Create, Update, or MarkAsDeleting (its trace holds only broadcasts) and can
return empty success even when the event lacks the clustername, resourceid,
and resourceversion extensions required of every other action. -/
theorem resync_dispatched_before_decode (db : DB) (hg : StatusHashGetter)
    (evt : CloudEvent) (et : CloudEventsType)
    (hp : parseCloudEventsType evt.ceType = some et)
    (hact : et.action = resyncRequestAction) :
    (∀ a ∈ (Publish db hg evt).1, ∃ r, a = BrokerAction.broadcast r) ∧
    Publish [] hgNone resyncNoExtensionsEvent = ([], .ok []) := by
  constructor
  · intro a ha
    cases hres : respondResyncStatusRequest db hg evt with
    | error e =>
      simp [Publish, hp, hact, hres] at ha
    | ok bs =>
      simp only [Publish, hp, hact, if_pos rfl, hres] at ha
      rcases List.mem_map.mp ha with ⟨r, -, hEq⟩
      exact ⟨r, hEq.symm⟩
  · rfl

/-- C10 witness: publishing the extension-less resync_request returns empty
success with an empty trace. -/
theorem resync_dispatched_before_decode_witness :
    Publish [] hgNone resyncNoExtensionsEvent = ([], .ok []) :=
  (resync_dispatched_before_decode [] hgNone resyncNoExtensionsEvent
    { dataType := manifestEventDataType, subResource := "status",
      action := resyncRequestAction } rfl rfl).2

/-- C2 witness: the filtering theorem applied at the concrete hash-filtered
resync scenario. -/
theorem ingress_resync_filtering_witness :
    ∃ bs, respondResyncStatusRequest [resyncR3, resyncR4] hgScenario resyncHashEvent
        = .ok bs ∧
      ∀ r ∈ dbFindBySource [resyncR3, resyncR4] resyncHashEvent.source,
        (r ∈ bs ↔ ∃ lastH, findStatusHash r.id resyncHashes = some lastH ∧
          hgScenario r ≠ some lastH) :=
  (ingress_resync_filtering [resyncR3, resyncR4] hgScenario resyncHashEvent resyncHashes
      rfl (by decide)).2 (by decide)

/-- C9 witness: with a failing hash getter, the loaded resource is skipped and
the resync still succeeds. -/
theorem resync_hash_error_skipped_witness :
    ∃ bs, respondResyncStatusRequest [resyncR3] hgNone resyncHashEvent = .ok bs ∧
      resyncR3 ∉ bs :=
  resync_hash_error_skipped [resyncR3] hgNone resyncHashEvent resyncHashes resyncR3
    rfl (by decide) (by simp [dbFindBySource, resyncR3, resyncHashEvent]) rfl

end Maestro
